import Mathlib

/-!
# Verification of the Personal Finance Dashboard ingestion pipeline

A shallow embedding of `finance_dashboard.py`: the field normalizers
(`parse_amount`, `normalize_debit_credit`), the schema detector (`find_col`),
the transaction loader (`load_transactions`), the category store and its
mutations (`init_categories`, `save_categories`, `add_keyword_to_category`,
the inline add-category handler), the categorizer
(`categorize_transactions`), and the edit-reconciliation loop of `main`
(`apply_edits`).

Modelling conventions:
* CSV cells are plain strings (`pd.read_csv(..., dtype=str,
  keep_default_na=False)` reads every cell as text, so `pd.isna` is false on
  every cell and blanks are empty strings).  CSVs are assumed rectangular.
* Machine floats are modelled as `ℚ`.  After `parse_amount`'s cleaning the
  string contains only digits, `'.'` and `'-'`, so scientific notation,
  `inf`/`nan` and underscores — accepted by Python's `float` but unreachable
  here — are not modelled.
* `st.session_state.categories` is a Python dict in insertion order,
  modelled as an association list; the persisted `categories.json` is
  modelled by `PersistedFile` (absent / unparseable / parsed content).
* Uncaught Python exceptions (the `KeyError` from `df["Debit/Credit"]` on a
  frame without that column, the `IndexError` from `.iloc[0]` on an empty
  selection, the `KeyError` from `categories[category]`) are modelled as
  explicit error results.
-/

namespace FinanceDashboard

/-- `needle.isPrefixOf`-based scan over the suffixes of `hay`: Python's
substring containment `needle in hay`. -/
def subAux (n : List Char) : List Char → Bool
  | [] => n.isEmpty
  | c :: cs => n.isPrefixOf (c :: cs) || subAux n cs

/-- Python's `needle in hay` on strings (contiguous substring test). -/
def strIn (needle hay : String) : Bool :=
  subAux needle.toList hay.toList

/-- ASCII whitespace stripped by Python's `str.strip()` (the claims never
exercise non-ASCII whitespace). -/
def isSpace (c : Char) : Bool :=
  c == ' ' || c == '\t' || c == '\n' || c == '\r' || c == '\x0b' || c == '\x0c'

/-- Python's `str.strip()` on a character list. -/
def trimList (cs : List Char) : List Char :=
  ((cs.dropWhile isSpace).reverse.dropWhile isSpace).reverse

/-- ASCII lower-casing of one character (Python `str.lower()` per char). -/
def lowerChar (c : Char) : Char :=
  if 'A' ≤ c && c ≤ 'Z' then Char.ofNat (c.toNat + 32) else c

/-- Python's `str.lower()` on a character list. -/
def lowerList (cs : List Char) : List Char :=
  cs.map lowerChar

/-- `s.strip().lower()` as a string-to-string operation. -/
def stripLower (s : String) : List Char :=
  lowerList (trimList s.toList)

/-- Python's `str.strip()` as a string-to-string operation. -/
def pyStrip (s : String) : String :=
  (trimList s.toList).asString

/-- The two transaction directions produced by the pipeline. -/
inductive Direction
  | Debit
  | Credit
deriving DecidableEq, Repr

/-- Value of a digit character. -/
def digitVal (c : Char) : Nat := c.toNat - 48

/-- Decimal value of a digit string. -/
def digitsToNat (cs : List Char) : Nat :=
  cs.foldl (fun a c => a * 10 + digitVal c) 0

/-- Unsigned decimal literal: digits with at most one `'.'` and at least one
digit somewhere (`"5"`, `"5."`, `".5"`; rejects `""`, `"."`, `"1.2.3"`,
anything with a stray character).  Models what `pd.to_numeric` /
Python `float` accept among strings over digits, `'.'` and `'-'`. -/
def parseUnsignedDec (cs : List Char) : Option ℚ :=
  match cs.splitOn '.' with
  | [ip] =>
      if ip ≠ [] ∧ ip.all Char.isDigit then some (digitsToNat ip) else none
  | [ip, fp] =>
      if (ip ≠ [] ∨ fp ≠ []) ∧ ip.all Char.isDigit ∧ fp.all Char.isDigit then
        some ((digitsToNat ip : ℚ) + (digitsToNat fp : ℚ) / (10 : ℚ) ^ fp.length)
      else none
  | _ => none

/-- Signed decimal literal: optional single leading `'-'`. -/
def parseSignedDec (cs : List Char) : Option ℚ :=
  match cs with
  | '-' :: rest => (parseUnsignedDec rest).map (fun q => -q)
  | _ => parseUnsignedDec cs

/-- `parse_amount` (finance_dashboard.py lines 56-58) on one cell:
`.str.replace(",", "")` deletes the comma characters, the regex
`[^\d\.-]` deletes every remaining character that is not a digit, `'.'` or
`'-'`, then `pd.to_numeric(..., errors="coerce")` parses (`none` models
NaN). -/
def parse_amount (s : String) : Option ℚ :=
  parseSignedDec
    ((s.toList.filter (fun c => c != ',')).filter fun c =>
      c.isDigit || c == '.' || c == '-')

/-- `normalize_debit_credit` (lines 42-53) on one string cell.  `pd.isna`
is false for strings, so that guard never fires on loaded cells; `none`
models the `np.nan` results. -/
def normalize_debit_credit (val : String) : Option Direction :=
  let s := stripLower val
  if ["debit", "withdraw", "payment", "dr"].any (fun x => subAux x.toList s) then
    some .Debit
  else if ["credit", "deposit", "cr"].any (fun x => subAux x.toList s) then
    some .Credit
  else
    match parseSignedDec s with
    | some q => some (if q < 0 then .Debit else .Credit)
    | none => none

/-- `pd.Series.abs()` on one value. -/
def ratAbs (a : ℚ) : ℚ :=
  if a < 0 then -a else a

/-- The category store `st.session_state.categories`: a Python dict in
insertion order, category name ↦ keyword list. -/
abbrev CatStore := List (String × List String)

/-- Dict lookup `categories[name]` as an option (first entry with the key). -/
def storeFind (store : CatStore) (name : String) : Option (List String) :=
  (store.find? (fun p => p.1 == name)).map (·.2)

/-- In-place update `categories[name] = kws` (keys and order unchanged). -/
def storeSet (store : CatStore) (name : String) (kws : List String) : CatStore :=
  store.map (fun p => if p.1 == name then (p.1, kws) else p)

/-- One row of the canonical transaction table.  `origIndex` is the
`_orig_index` column produced by `reset_index` (line 142): the row's label
in the pandas index, i.e. its 0-based position in the CSV *before* the
amount filter.  `date` carries the raw Date cell (`none` when no Date
column resolved, where the code stores `NaT`); `parse_date` is not
modelled since no claim concerns date values. -/
structure Txn where
  origIndex : Nat
  date : Option String
  details : String
  amount : ℚ
  direction : Direction
  category : String
deriving DecidableEq, Repr

/-- One pass of the `for category, keywords in ...` loop body of
`categorize_transactions` (lines 74-82) over the whole table. -/
def categoryStep (ts : List Txn) (p : String × List String) : List Txn :=
  if p.1 == "Uncategorized" || p.2.isEmpty then ts
  else
    let lowered := p.2.map (fun kw => trimList (lowerList kw.toList))
    ts.map (fun t =>
      if lowered.any (fun kw => subAux kw (lowerList t.details.toList)) then
        { t with category := p.1 }
      else t)

/-- `categorize_transactions` (lines 71-83): iterate the store in insertion
order; each matching category overwrites the row's category (the initial
`df["Category"]` default `"Uncategorized"` is set by the loader below). -/
def categorize_transactions (store : CatStore) (ts : List Txn) : List Txn :=
  store.foldl categoryStep ts

/-- `find_col` (lines 99-103): first header column, in order, whose
lower-cased name contains one of the keywords as a substring.  The source
returns the column *name* and renames it; we return its index, the same
column whenever the resolved columns are distinct (as in every claim
scenario). -/
def find_col (header : List String) (keywords : List String) : Option Nat :=
  header.findIdx? (fun col => keywords.any (fun k => strIn k (lowerList col.toList).asString))

/-- A parsed CSV: header row plus data rows, every cell a raw string
(`dtype=str, keep_default_na=False`). -/
structure RawCSV where
  header : List String
  rows : List (List String)
deriving Repr

/-- Cell of a row at a column index (CSVs are assumed rectangular). -/
def cell (row : List String) (i : Nat) : String :=
  row.getD i ""

/-- How a load can fail: the explicit schema error of line 111, or an
uncaught pandas `KeyError` (line 135 evaluates `df["Debit/Credit"]` on a
frame that has no such column when no debit/credit-like column resolved). -/
inductive LoadError
  | schemaError
  | keyError (col : String)
deriving DecidableEq, Repr

/-- Result of `load_transactions` (the source returns `None` after
`st.error` for the schema failure; an uncaught exception aborts the run). -/
inductive LoadResult
  | ok (txns : List Txn)
  | error (e : LoadError)
deriving DecidableEq, Repr

/-- The per-row direction of lines 133-137: the normalized Debit/Credit
value where present, otherwise the `fillna` fallback computed from the
**post-abs** Amount column. -/
def row_direction (dcCell : String) (absAmt : ℚ) : Direction :=
  (normalize_debit_credit dcCell).getD (if absAmt < 0 then .Debit else .Credit)

/-- `load_transactions` (lines 89-145) on an already-readable CSV (claims
about unreadable files are not in scope; `CsvReadError` would be a third
failure mode).  Steps: strip header names, resolve columns, fail when
Details or Amount is unresolved, parse amounts and silently drop rows whose
amount does not parse (the pandas row labels — the original 0-based
positions — survive the filter and become `_orig_index` via
`reset_index`), take absolute values, normalize directions (raising
`KeyError` when no Debit/Credit column exists), trim details, and
categorize. -/
def load_transactions (csv : RawCSV) (store : CatStore) : LoadResult :=
  let header := csv.header.map pyStrip
  let col_date := find_col header ["date"]
  let col_details := find_col header ["detail", "description", "narration"]
  let col_amount := find_col header ["amount", "amt", "value"]
  let col_dc := find_col header ["debit", "credit", "type"]
  match col_details, col_amount with
  | some iDet, some iAmt =>
    let parsed : List (Nat × List String × ℚ) :=
      csv.rows.enum.filterMap (fun p =>
        (parse_amount (cell p.2 iAmt)).map (fun a => (p.1, p.2, a)))
    match col_dc with
    | none => .error (.keyError "Debit/Credit")
    | some iDc =>
      let txns := parsed.map (fun q =>
        { origIndex := q.1
          date := col_date.map (fun i => cell q.2.1 i)
          details := pyStrip (cell q.2.1 iDet)
          amount := ratAbs q.2.2
          direction := row_direction (cell q.2.1 iDc) (ratAbs q.2.2)
          category := "Uncategorized" : Txn })
      .ok (categorize_transactions store txns)
  | _, _ => .error .schemaError

/-- The persisted `categories.json`: absent, present but unparseable, or
parsed content. -/
inductive PersistedFile
  | absent
  | corrupt
  | parsed (store : CatStore)
deriving DecidableEq, Repr

/-- The default store of line 17. -/
def defaultStore : CatStore := [("Uncategorized", [])]

/-- Lines 16-24: session-state category initialization.  The default is set
first; a file that parses replaces it wholesale; a raised `json.load`
leaves the default and emits the warning (the returned `Bool`). -/
def init_categories : PersistedFile → CatStore × Bool
  | .absent => (defaultStore, false)
  | .corrupt => (defaultStore, true)
  | .parsed s => (s, false)

/-- The process-wide mutable state: the in-memory store and the persisted
file. -/
structure Session where
  categories : CatStore
  persisted : PersistedFile
deriving DecidableEq, Repr

/-- `save_categories` (lines 27-29): rewrite the file from the in-memory
store. -/
def save_categories (sess : Session) : Session :=
  { sess with persisted := .parsed sess.categories }

/-- `add_keyword_to_category` (lines 32-36).  The guard
`if keyword and keyword not in st.session_state.categories[category]`
short-circuits, so an empty stripped keyword never indexes the dict; a
category absent from the dict raises `KeyError` (modelled as `.error`);
membership is case-sensitive string equality; appending persists. -/
def add_keyword_to_category (sess : Session) (category keyword : String) :
    Except String Session :=
  let kw := pyStrip keyword
  if kw == "" then .ok sess
  else
    match storeFind sess.categories category with
    | none => .error "KeyError"
    | some kws =>
      if kw ∈ kws then .ok sess
      else .ok (save_categories
        { sess with categories := storeSet sess.categories category (kws ++ [kw]) })

/-- The inline add-category handler of `main` (lines 178-183): a no-op when
the name is already a key, otherwise insert with an empty keyword list
(dict insertion appends at the end) and persist. -/
def add_category (sess : Session) (name : String) : Session :=
  match storeFind sess.categories name with
  | some _ => sess
  | none => save_categories { sess with categories := sess.categories ++ [(name, [])] }

/-- One row of the edited table handed back by the presentation layer
(`_orig_index`, the possibly-changed Category, and the Details cell). -/
structure Edit where
  origIndex : Nat
  newCategory : String
  details : String
deriving DecidableEq, Repr

/-- Result of the Apply-Changes loop: final session, table, applied-edit
count, and the uncaught exception (if any) that aborted the loop. -/
structure EditOutcome where
  sess : Session
  table : List Txn
  count : Nat
  err : Option String
deriving DecidableEq, Repr

/-- The Apply-Changes loop of `main` (lines 210-225).  Per edited row:
select the table row with the same `_orig_index` and read its category
(`.iloc[0]` raises `IndexError` when no row matches, aborting the loop with
the state mutated so far); when the category changed, update it in place,
learn the details as a keyword of the new category (which can itself raise
`KeyError`), and count the change. -/
def apply_edits (sess : Session) (table : List Txn) (count : Nat) :
    List Edit → EditOutcome
  | [] => ⟨sess, table, count, none⟩
  | e :: rest =>
    match table.find? (fun t => t.origIndex == e.origIndex) with
    | none => ⟨sess, table, count, some "IndexError"⟩
    | some t =>
      if e.newCategory ≠ t.category then
        let table2 := table.map (fun u =>
          if u.origIndex == e.origIndex then { u with category := e.newCategory } else u)
        match add_keyword_to_category sess e.newCategory e.details with
        | .error msg => ⟨sess, table2, count, some msg⟩
        | .ok sess2 => apply_edits sess2 table2 (count + 1) rest
      else apply_edits sess table count rest

/-- The category directions of a load result (`none` on failure). -/
def LoadResult.directions : LoadResult → Option (List Direction)
  | .ok ts => some (ts.map Txn.direction)
  | .error _ => none

/-- The `_orig_index` column of a load result (`none` on failure). -/
def LoadResult.origIndices : LoadResult → Option (List Nat)
  | .ok ts => some (ts.map Txn.origIndex)
  | .error _ => none

/-- Whether the loop body of `categorize_transactions` moves a row with
these details into category `p`: `p` is not skipped (not `"Uncategorized"`,
keywords non-empty) and some lowered-stripped keyword occurs in the
lower-cased details. -/
def kwMatch (p : String × List String) (details : String) : Bool :=
  !(p.1 == "Uncategorized" || p.2.isEmpty) &&
    (p.2.map (fun kw => trimList (lowerList kw.toList))).any
      (fun kw => subAux kw (lowerList details.toList))

/-- Overwrite a row's category. -/
def setCat (t : Txn) (c : String) : Txn :=
  { t with category := c }

/-- The effect of one category's pass on one row. -/
def catOne (p : String × List String) (t : Txn) : Txn :=
  if kwMatch p t.details then setCat t p.1 else t

/-- The effect of the whole categorizer on one row. -/
def catFold (store : CatStore) (t : Txn) : Txn :=
  store.foldl (fun u p => catOne p u) t

/-- Invariant used for the keyword-learning round trip: the persisted file
parses back to the in-memory store, and `kw` is among `cat`'s keywords. -/
abbrev KwInv (cat kw : String) (sess : Session) : Prop :=
  sess.persisted = .parsed sess.categories ∧
    kw ∈ (storeFind sess.categories cat).getD []

/-- Two-row CSV with no debit/credit-like column and amounts -50 / 30. -/
def csvNoDC : RawCSV :=
  ⟨["Details", "Amount"], [["salary part", "-50"], ["grocery", "30"]]⟩

/-- The same rows with a Type column whose values match no direction
keyword and parse as no number. -/
def csvBlankDC : RawCSV :=
  ⟨["Details", "Amount", "Type"],
   [["salary part", "-50", ""], ["grocery", "30", ""]]⟩

/-- CSV whose first row has an unparseable amount (dropped during load). -/
def csvDropRow : RawCSV :=
  ⟨["Details", "Amount", "Type"],
   [["junk", "abc", ""], ["grocery", "30", "debit"]]⟩

/-- The single row surviving a load of `csvDropRow`. -/
def txnGrocery : Txn :=
  ⟨1, none, "grocery", ((30 : ℕ) : ℚ), .Debit, "Uncategorized"⟩

/-- CSV with no details-like column. -/
def csvNoDetails : RawCSV :=
  ⟨["Foo", "Amount"], [["x", "5"]]⟩

/-- A transaction whose details contain keywords of several categories. -/
def txnFoodcourt : Txn :=
  ⟨0, none, "foodcourt purchase", ((50 : ℕ) : ℚ), .Debit, "Uncategorized"⟩

/-- A session whose store has `"Uncategorized"` and an empty `"Food"`
category, with the persisted file in sync. -/
def sessFood : Session :=
  ⟨[("Uncategorized", []), ("Food", [])],
   .parsed [("Uncategorized", []), ("Food", [])]⟩

/-- One-row debits table for the edit scenarios. -/
def tableCoffee : List Txn :=
  [⟨0, none, "coffee", ((5 : ℕ) : ℚ), .Debit, "Uncategorized"⟩]

/-- `sessFood` after learning the keyword `"pizza"` for `"Food"`. -/
def sessFoodPizza : Session :=
  ⟨[("Uncategorized", []), ("Food", ["pizza"])],
   .parsed [("Uncategorized", []), ("Food", ["pizza"])]⟩

/-! ## General lemmas about the embedded operations -/

theorem ratAbs_nonneg (a : ℚ) : 0 ≤ ratAbs a := by
  unfold ratAbs
  split <;> linarith

theorem setCat_setCat (t : Txn) (c₁ c₂ : String) :
    setCat (setCat t c₁) c₂ = setCat t c₂ := rfl

theorem setCat_self (t : Txn) : setCat t t.category = t := rfl

theorem setCat_details (t : Txn) (c : String) :
    (setCat t c).details = t.details := rfl

theorem catOne_cases (p : String × List String) (t : Txn) :
    catOne p t = t ∨ catOne p t = setCat t p.1 := by
  unfold catOne
  split
  · exact Or.inr rfl
  · exact Or.inl rfl

theorem catOne_of_match {p : String × List String} {t : Txn}
    (h : kwMatch p t.details = true) : catOne p t = setCat t p.1 := by
  unfold catOne
  rw [if_pos h]

theorem catOne_of_no_match {p : String × List String} {t : Txn}
    (h : kwMatch p t.details = false) : catOne p t = t := by
  unfold catOne
  rw [if_neg (by simp [h])]

theorem catOne_details (p : String × List String) (t : Txn) :
    (catOne p t).details = t.details := by
  unfold catOne setCat
  split <;> rfl

theorem catOne_origIndex (p : String × List String) (t : Txn) :
    (catOne p t).origIndex = t.origIndex := by
  unfold catOne setCat
  split <;> rfl

theorem catOne_amount (p : String × List String) (t : Txn) :
    (catOne p t).amount = t.amount := by
  unfold catOne setCat
  split <;> rfl

theorem categoryStep_eq_map (ts : List Txn) (p : String × List String) :
    categoryStep ts p = ts.map (catOne p) := by
  by_cases h : (p.1 == "Uncategorized" || p.2.isEmpty) = true
  · unfold categoryStep
    rw [if_pos h]
    refine ((List.map_congr_left fun t _ => ?_).trans (List.map_id ts)).symm
    exact catOne_of_no_match (by simp [kwMatch, h])
  · simp only [categoryStep, if_neg h]
    apply List.map_congr_left
    intro t _
    have hcond : (p.1 == "Uncategorized" || p.2.isEmpty) = false :=
      Bool.not_eq_true _ ▸ h
    simp [catOne, kwMatch, setCat, hcond]

theorem catFold_cons (p : String × List String) (ps : CatStore) (t : Txn) :
    catFold (p :: ps) t = catFold ps (catOne p t) := rfl

theorem categorize_eq_map (store : CatStore) (ts : List Txn) :
    categorize_transactions store ts = ts.map (catFold store) := by
  induction store generalizing ts with
  | nil => exact ((List.map_congr_left fun t _ => rfl).trans (List.map_id ts)).symm
  | cons p ps ih =>
      have h1 : categorize_transactions (p :: ps) ts
          = categorize_transactions ps (categoryStep ts p) := rfl
      rw [h1, ih, categoryStep_eq_map, List.map_map]
      exact List.map_congr_left fun t _ => rfl

theorem catFold_details (s : CatStore) (t : Txn) :
    (catFold s t).details = t.details := by
  induction s generalizing t with
  | nil => rfl
  | cons p ps ih => rw [catFold_cons, ih, catOne_details]

theorem catFold_origIndex (s : CatStore) (t : Txn) :
    (catFold s t).origIndex = t.origIndex := by
  induction s generalizing t with
  | nil => rfl
  | cons p ps ih => rw [catFold_cons, ih, catOne_origIndex]

theorem catFold_amount (s : CatStore) (t : Txn) :
    (catFold s t).amount = t.amount := by
  induction s generalizing t with
  | nil => rfl
  | cons p ps ih => rw [catFold_cons, ih, catOne_amount]

theorem catFold_set (s : CatStore) (t : Txn) :
    catFold s t = setCat t (catFold s t).category := by
  induction s generalizing t with
  | nil => exact (setCat_self t).symm
  | cons p ps ih =>
      rw [catFold_cons]
      rcases catOne_cases p t with h | h
      · rw [h]
        exact ih t
      · rw [h]
        exact (ih (setCat t p.1)).trans (setCat_setCat t p.1 _)

theorem catFold_no_match {s : CatStore} {t : Txn}
    (h : ∀ p ∈ s, kwMatch p t.details = false) : catFold s t = t := by
  induction s with
  | nil => rfl
  | cons p ps ih =>
      rw [catFold_cons, catOne_of_no_match (h p (List.mem_cons_self p ps))]
      exact ih fun q hq => h q (List.mem_cons_of_mem p hq)

theorem categorize_map_origIndex (store : CatStore) (ts : List Txn) :
    (categorize_transactions store ts).map Txn.origIndex = ts.map Txn.origIndex := by
  rw [categorize_eq_map, List.map_map]
  exact List.map_congr_left fun t _ => catFold_origIndex store t

theorem categorize_map_amount (store : CatStore) (ts : List Txn) :
    (categorize_transactions store ts).map Txn.amount = ts.map Txn.amount := by
  rw [categorize_eq_map, List.map_map]
  exact List.map_congr_left fun t _ => catFold_amount store t

theorem categoryStep_uncategorized (ts : List Txn) (kws : List String) :
    categoryStep ts ("Uncategorized", kws) = ts := by
  simp [categoryStep]

theorem categorize_skip_uncategorized (s₁ s₂ : CatStore) (kws : List String)
    (ts : List Txn) :
    categorize_transactions (s₁ ++ ("Uncategorized", kws) :: s₂) ts
      = categorize_transactions (s₁ ++ s₂) ts := by
  unfold categorize_transactions
  rw [List.foldl_append, List.foldl_cons, categoryStep_uncategorized,
    ← List.foldl_append]

theorem storeFind_cons (p : String × List String) (ps : CatStore) (n : String) :
    storeFind (p :: ps) n = if p.1 == n then some p.2 else storeFind ps n := by
  unfold storeFind
  cases hp : (p.1 == n) <;> simp [List.find?_cons, hp]

theorem storeFind_append_of_some {s : CatStore} {n : String} {l : List String}
    (h : storeFind s n = some l) (s₂ : CatStore) :
    storeFind (s ++ s₂) n = some l := by
  induction s with
  | nil => simp [storeFind] at h
  | cons p ps ih =>
      rw [List.cons_append, storeFind_cons]
      rw [storeFind_cons] at h
      by_cases hp : (p.1 == n) = true
      · rw [if_pos hp] at h ⊢
        exact h
      · rw [if_neg hp] at h ⊢
        exact ih h

theorem storeSet_cons (p : String × List String) (ps : CatStore) (n : String)
    (k : List String) :
    storeSet (p :: ps) n k = (if p.1 == n then (p.1, k) else p) :: storeSet ps n k := rfl

theorem storeFind_storeSet_self {s : CatStore} {c : String} {l : List String}
    (h : storeFind s c = some l) (k : List String) :
    storeFind (storeSet s c k) c = some k := by
  induction s with
  | nil => simp [storeFind] at h
  | cons p ps ih =>
      rw [storeFind_cons] at h
      rw [storeSet_cons]
      by_cases hp : (p.1 == c) = true
      · rw [if_pos hp, storeFind_cons, if_pos hp]
      · rw [if_neg hp, storeFind_cons, if_neg hp]
        rw [if_neg hp] at h
        exact ih h

theorem storeFind_storeSet_ne {c n : String} (hcn : c ≠ n) (s : CatStore)
    (k : List String) :
    storeFind (storeSet s c k) n = storeFind s n := by
  induction s with
  | nil => rfl
  | cons p ps ih =>
      rw [storeSet_cons]
      by_cases hp : (p.1 == c) = true
      · have hp1 : p.1 = c := by simpa using hp
        have hpn : (p.1 == n) = false := by
          rw [hp1]
          exact beq_eq_false_iff_ne.mpr hcn
        rw [if_pos hp, storeFind_cons, storeFind_cons]
        rw [show (((p.1, k) : String × List String).1 == n) = false from hpn]
        simpa using ih
      · rw [if_neg hp, storeFind_cons, storeFind_cons]
        by_cases hpn : (p.1 == n) = true
        · rw [if_pos hpn, if_pos hpn]
        · rw [if_neg hpn, if_neg hpn]
          exact ih

theorem add_keyword_preserves_key {sess sess₂ : Session} {c k n : String}
    (hu : storeFind sess.categories n ≠ none)
    (h : add_keyword_to_category sess c k = .ok sess₂) :
    storeFind sess₂.categories n ≠ none := by
  simp only [add_keyword_to_category] at h
  split at h
  · cases h
    exact hu
  · split at h
    · exact Except.noConfusion h
    · rename_i kws hf
      split at h
      · cases h
        exact hu
      · cases h
        show storeFind (storeSet sess.categories c (kws ++ [pyStrip k])) n ≠ none
        by_cases hc : c = n
        · subst hc
          rw [storeFind_storeSet_self hf]
          exact Option.noConfusion
        · rw [storeFind_storeSet_ne hc]
          exact hu

theorem add_keyword_KwInv {cat kw : String} {sess sess₂ : Session}
    {c k : String} (hinv : KwInv cat kw sess)
    (h : add_keyword_to_category sess c k = .ok sess₂) : KwInv cat kw sess₂ := by
  obtain ⟨hsync, hkw⟩ := hinv
  simp only [add_keyword_to_category] at h
  split at h
  · cases h
    exact ⟨hsync, hkw⟩
  · split at h
    · exact Except.noConfusion h
    · rename_i kws hf
      split at h
      · cases h
        exact ⟨hsync, hkw⟩
      · cases h
        refine ⟨rfl, ?_⟩
        show kw ∈ (storeFind (storeSet sess.categories c (kws ++ [pyStrip k])) cat).getD []
        by_cases hc : c = cat
        · subst hc
          rw [storeFind_storeSet_self hf]
          rw [hf] at hkw
          exact List.mem_append_left _ (by simpa using hkw)
        · rw [storeFind_storeSet_ne hc]
          exact hkw

theorem apply_edits_KwInv {cat kw : String} (es : List Edit) (sess : Session)
    (table : List Txn) (count : Nat) (hinv : KwInv cat kw sess) :
    KwInv cat kw (apply_edits sess table count es).sess := by
  induction es generalizing sess table count with
  | nil => exact hinv
  | cons e rest ih =>
      cases hf : table.find? (fun t => t.origIndex == e.origIndex) with
      | none =>
          simp only [apply_edits, hf]
          exact hinv
      | some t =>
          by_cases hcat : e.newCategory ≠ t.category
          · simp only [apply_edits, hf, if_pos hcat]
            cases hk : add_keyword_to_category sess e.newCategory e.details with
            | error msg =>
                simp only [hk]
                exact hinv
            | ok sess₂ =>
                simp only [hk]
                exact ih sess₂ _ _ (add_keyword_KwInv ⟨hinv.1, hinv.2⟩ hk)
          · simp only [apply_edits, hf, if_neg hcat]
            exact ih sess _ _ hinv

theorem apply_edits_append (es₁ es₂ : List Edit) (sess : Session)
    (table : List Txn) (count : Nat)
    (h : (apply_edits sess table count es₁).err = none) :
    apply_edits sess table count (es₁ ++ es₂) =
      apply_edits (apply_edits sess table count es₁).sess
        (apply_edits sess table count es₁).table
        (apply_edits sess table count es₁).count es₂ := by
  induction es₁ generalizing sess table count with
  | nil => rfl
  | cons e rest ih =>
      rw [List.cons_append]
      cases hf : table.find? (fun t => t.origIndex == e.origIndex) with
      | none =>
          exfalso
          simp only [apply_edits, hf] at h
          exact Option.noConfusion h
      | some t =>
          by_cases hcat : e.newCategory ≠ t.category
          · simp only [apply_edits, hf, if_pos hcat] at h ⊢
            cases hk : add_keyword_to_category sess e.newCategory e.details with
            | error msg =>
                rw [hk] at h
                exact Option.noConfusion h
            | ok sess₂ =>
                rw [hk] at h
                exact ih sess₂ _ _ h
          · simp only [apply_edits, hf, if_neg hcat] at h ⊢
            exact ih sess _ _ h

theorem parsedRows_fst_sublist (iAmt : Nat) (l : List (Nat × List String)) :
    ((l.filterMap (fun p => (parse_amount (cell p.2 iAmt)).map
        (fun a => (p.1, p.2, a)))).map (fun q => q.1)).Sublist
      (l.map Prod.fst) := by
  induction l with
  | nil => simp
  | cons a l ih =>
      rw [List.filterMap_cons]
      cases h : parse_amount (cell a.2 iAmt) with
      | none =>
          simp only [h, Option.map_none']
          exact ih.cons a.1
      | some q =>
          simp only [h, Option.map_some', List.map_cons]
          exact ih.cons₂ a.1

/-! ## Claim theorems -/

/-- C1: the claim says a CSV with resolvable Details and Amount but no
debit/credit-like column loads successfully, with directions derived from
the pre-abs sign (so amounts [-50, 30] give Debit, Credit).  The code
instead raises `KeyError` at the `fillna` line when the column is absent;
and when a debit/credit column exists but none of its values normalize,
the fallback tests the already-absolute Amount, so every such row becomes
Credit — never Debit. -/
theorem claim_C1_code_eval :
    load_transactions csvNoDC defaultStore = .error (.keyError "Debit/Credit") ∧
    (load_transactions csvBlankDC defaultStore).directions
      = some [.Credit, .Credit] ∧
    (load_transactions csvBlankDC defaultStore).directions
      ≠ some [.Debit, .Credit] := by
  refine ⟨by decide, by decide, by decide⟩

/-- C2 (counterexample): loading a CSV whose first row is dropped by the
amount filter yields a surviving row with id 1 — its original pre-filter
position — not the post-filter position 0 the claim requires. -/
theorem claim_C2_counterexample :
    (load_transactions csvDropRow defaultStore).origIndices = some [1] ∧
    (load_transactions csvDropRow defaultStore).origIndices ≠ some [0] := by
  refine ⟨by decide, by decide⟩

/-- C2 (amended): for every CSV the loader accepts, every row's amount is
non-negative and the ids are strictly increasing (hence unique) original
pre-filter row positions, each below the CSV's row count — but not
necessarily the contiguous sequence of post-filter positions. -/
theorem claim_C2_amended (csv : RawCSV) (store : CatStore) (txns : List Txn)
    (h : load_transactions csv store = .ok txns) :
    (∀ t ∈ txns, 0 ≤ t.amount) ∧
    (txns.map Txn.origIndex).Pairwise (· < ·) ∧
    ∀ t ∈ txns, t.origIndex < csv.rows.length := by
  simp only [load_transactions] at h
  cases hdet : find_col (csv.header.map pyStrip) ["detail", "description", "narration"] with
  | none =>
      rw [hdet] at h
      exact LoadResult.noConfusion h
  | some iDet =>
      cases hamt : find_col (csv.header.map pyStrip) ["amount", "amt", "value"] with
      | none =>
          rw [hdet, hamt] at h
          exact LoadResult.noConfusion h
      | some iAmt =>
          rw [hdet, hamt] at h
          cases hdc : find_col (csv.header.map pyStrip) ["debit", "credit", "type"] with
          | none =>
              rw [hdc] at h
              exact LoadResult.noConfusion h
          | some iDc =>
              rw [hdc] at h
              have h2 := LoadResult.ok.inj h
              subst h2
              refine ⟨?_, ?_, ?_⟩
              · intro t ht
                have hmem := List.mem_map_of_mem Txn.amount ht
                rw [categorize_map_amount, List.map_map] at hmem
                obtain ⟨q, hq, hqe⟩ := List.mem_map.mp hmem
                rw [← hqe]
                exact ratAbs_nonneg q.2.2
              · rw [categorize_map_origIndex, List.map_map]
                have hsub := parsedRows_fst_sublist iAmt csv.rows.enum
                rw [List.enum_map_fst] at hsub
                exact List.Pairwise.sublist hsub
                  (List.pairwise_lt_range csv.rows.length)
              · intro t ht
                have hmem := List.mem_map_of_mem Txn.origIndex ht
                rw [categorize_map_origIndex, List.map_map] at hmem
                have hsub := parsedRows_fst_sublist iAmt csv.rows.enum
                rw [List.enum_map_fst] at hsub
                exact List.mem_range.mp (hsub.subset hmem)

/-- C2 (amended) at a concrete input: `csvDropRow` loads to the single
`txnGrocery` row, whose amount is non-negative and whose id is below the
CSV's row count. -/
theorem claim_C2_amended_witness :
    (∀ t ∈ [txnGrocery], 0 ≤ t.amount) ∧
    ([txnGrocery].map Txn.origIndex).Pairwise (· < ·) ∧
    ∀ t ∈ [txnGrocery], t.origIndex < csvDropRow.rows.length :=
  claim_C2_amended csvDropRow defaultStore [txnGrocery] (by decide)

/-- C3 (counterexample): a batch whose first edit references the unknown
id 7 aborts with `IndexError`: the later resolvable edit is not applied
and the count stays 0 — the unknown id is not silently ignored. -/
theorem claim_C3_counterexample :
    (apply_edits sessFood tableCoffee 0
        [⟨7, "Food", "x"⟩, ⟨0, "Food", "coffee"⟩]).err = some "IndexError" ∧
    (apply_edits sessFood tableCoffee 0
        [⟨7, "Food", "x"⟩, ⟨0, "Food", "coffee"⟩]).count = 0 ∧
    (apply_edits sessFood tableCoffee 0
        [⟨7, "Food", "x"⟩, ⟨0, "Food", "coffee"⟩]).table = tableCoffee := by
  refine ⟨by decide, by decide, by decide⟩

/-- C3 (amended): an edit whose id matches no row raises `IndexError` and
aborts the batch with the state as mutated so far (later edits are not
applied); and a prefix of the batch that completes without error keeps its
effects when the batch continues — per-row updates are independent, with
no rollback. -/
theorem claim_C3_amended (sess : Session) (table : List Txn) (count : Nat)
    (e : Edit) (rest : List Edit)
    (sess₀ : Session) (table₀ : List Txn) (count₀ : Nat) (es₁ es₂ : List Edit)
    (hmiss : table.find? (fun t => t.origIndex == e.origIndex) = none)
    (hok : (apply_edits sess₀ table₀ count₀ es₁).err = none) :
    apply_edits sess table count (e :: rest)
      = ⟨sess, table, count, some "IndexError"⟩ ∧
    apply_edits sess₀ table₀ count₀ (es₁ ++ es₂) =
      apply_edits (apply_edits sess₀ table₀ count₀ es₁).sess
        (apply_edits sess₀ table₀ count₀ es₁).table
        (apply_edits sess₀ table₀ count₀ es₁).count es₂ := by
  constructor
  · simp only [apply_edits, hmiss]
  · exact apply_edits_append es₁ es₂ sess₀ table₀ count₀ hok

/-- C3 (amended) at a concrete input: the unknown id 7 aborts a batch
against `tableCoffee` immediately, and a successfully applied one-edit
prefix stays applied when the batch continues. -/
theorem claim_C3_amended_witness :
    apply_edits sessFood tableCoffee 0 (⟨7, "Food", "x"⟩ :: [⟨0, "Food", "coffee"⟩])
      = ⟨sessFood, tableCoffee, 0, some "IndexError"⟩ ∧
    apply_edits sessFood tableCoffee 0 ([⟨0, "Food", "coffee"⟩] ++ [⟨7, "Food", "x"⟩]) =
      apply_edits (apply_edits sessFood tableCoffee 0 [⟨0, "Food", "coffee"⟩]).sess
        (apply_edits sessFood tableCoffee 0 [⟨0, "Food", "coffee"⟩]).table
        (apply_edits sessFood tableCoffee 0 [⟨0, "Food", "coffee"⟩]).count
        [⟨7, "Food", "x"⟩] :=
  claim_C3_amended sessFood tableCoffee 0 ⟨7, "Food", "x"⟩ [⟨0, "Food", "coffee"⟩]
    sessFood tableCoffee 0 [⟨0, "Food", "coffee"⟩] [⟨7, "Food", "x"⟩]
    (by decide) (by decide)

/-- C4: when a transaction's details match the keywords of category `c`
and no category listed after `c` in the store's iteration order matches,
the categorizer assigns `c` — the last matching category wins, whatever
matched earlier. -/
theorem claim_C4 (store₁ store₂ : CatStore) (c : String) (kws : List String)
    (t : Txn) (hmatch : kwMatch (c, kws) t.details = true)
    (hafter : ∀ p ∈ store₂, kwMatch p t.details = false) :
    categorize_transactions (store₁ ++ (c, kws) :: store₂) [t] = [setCat t c] := by
  rw [categorize_eq_map]
  simp only [List.map_cons, List.map_nil]
  have hsplit : catFold (store₁ ++ (c, kws) :: store₂) t
      = catFold store₂ (catOne (c, kws) (catFold store₁ t)) := by
    unfold catFold
    rw [List.foldl_append, List.foldl_cons]
  have hd : (catFold store₁ t).details = t.details := catFold_details store₁ t
  have h1 : catOne (c, kws) (catFold store₁ t) = setCat (catFold store₁ t) c := by
    apply catOne_of_match
    rw [hd]
    exact hmatch
  have h2 : catFold store₂ (setCat (catFold store₁ t) c)
      = setCat (catFold store₁ t) c := by
    apply catFold_no_match
    intro p hp
    rw [setCat_details, hd]
    exact hafter p hp
  rw [hsplit, h1, h2, catFold_set store₁ t, setCat_setCat]

/-- C4 at the concrete scenario of the claim: with `A:["food"]` inserted
before `B:["foodcourt"]`, the row with details "foodcourt purchase" (which
matches both) ends in category B. -/
theorem claim_C4_witness :
    categorize_transactions
      ([("Uncategorized", []), ("A", ["food"])] ++ ("B", ["foodcourt"]) :: [])
      [txnFoodcourt] = [setCat txnFoodcourt "B"] :=
  claim_C4 [("Uncategorized", []), ("A", ["food"])] [] "B" ["foodcourt"]
    txnFoodcourt (by decide) (by intro p hp; cases hp)

/-- C5 (counterexample): a persisted file that parses to a store without
the key replaces the in-memory store wholesale, so `"Uncategorized"` is
absent afterwards — the claimed invariant fails for parseable files
lacking the key. -/
theorem claim_C5_counterexample :
    storeFind (init_categories (.parsed [("Food", ["pizza"])])).1 "Uncategorized"
      = none := by
  decide

/-- C5 (amended): `"Uncategorized"` is present after initialization from
an absent or unparseable file, and its presence is preserved by the
add-category and add-keyword mutations; initialization from a file that
parses successfully replaces the store wholesale, so the key survives only
if the file contains it.  Keywords stored under `"Uncategorized"` never
cause any transaction to be assigned a category: the categorizer's result
is unchanged if that entry is removed. -/
theorem claim_C5_amended (f : PersistedFile) (sess sess₂ : Session)
    (name cat kw : String) (s₁ s₂ : CatStore) (kws : List String) (ts : List Txn)
    (hf : f = .absent ∨ f = .corrupt)
    (hu : storeFind sess.categories "Uncategorized" ≠ none)
    (hadd : add_keyword_to_category sess cat kw = .ok sess₂) :
    storeFind (init_categories f).1 "Uncategorized" = some [] ∧
    storeFind (add_category sess name).categories "Uncategorized" ≠ none ∧
    storeFind sess₂.categories "Uncategorized" ≠ none ∧
    categorize_transactions (s₁ ++ ("Uncategorized", kws) :: s₂) ts
      = categorize_transactions (s₁ ++ s₂) ts := by
  refine ⟨?_, ?_, add_keyword_preserves_key hu hadd,
    categorize_skip_uncategorized s₁ s₂ kws ts⟩
  · rcases hf with hf | hf <;> subst hf <;> decide
  · cases hn : storeFind sess.categories name with
    | some l =>
        simp only [add_category, hn]
        exact hu
    | none =>
        simp only [add_category, hn]
        obtain ⟨l, hl⟩ := Option.ne_none_iff_exists'.mp hu
        show storeFind (sess.categories ++ [(name, [])]) "Uncategorized" ≠ none
        rw [storeFind_append_of_some hl]
        exact fun hc => Option.noConfusion hc

/-- C5 (amended) at a concrete input: after a corrupt-file start and
mutations adding "Travel" and the "pizza" keyword to "Food",
`"Uncategorized"` is still present, and a keyword list under
`"Uncategorized"` does not affect categorization. -/
theorem claim_C5_amended_witness :
    storeFind (init_categories .corrupt).1 "Uncategorized" = some [] ∧
    storeFind (add_category sessFood "Travel").categories "Uncategorized" ≠ none ∧
    storeFind sessFoodPizza.categories "Uncategorized" ≠ none ∧
    categorize_transactions ([] ++ ("Uncategorized", ["burger"]) :: [("Food", ["pizza"])])
        [txnFoodcourt]
      = categorize_transactions ([] ++ [("Food", ["pizza"])]) [txnFoodcourt] :=
  claim_C5_amended .corrupt sessFood sessFoodPizza "Travel" "Food" "pizza"
    [] [("Food", ["pizza"])] ["burger"] [txnFoodcourt]
    (Or.inr rfl) (by decide) (by rfl)

/-- C6: when no header column resolves the Details role or none resolves
the Amount role, the load fails with the schema error and produces no
transaction table. -/
theorem claim_C6 (csv : RawCSV) (store : CatStore)
    (h : find_col (csv.header.map pyStrip) ["detail", "description", "narration"] = none
       ∨ find_col (csv.header.map pyStrip) ["amount", "amt", "value"] = none) :
    load_transactions csv store = .error .schemaError := by
  simp only [load_transactions]
  rcases h with h | h
  · rw [h]
  · cases hdet : find_col (csv.header.map pyStrip) ["detail", "description", "narration"] with
    | none => rw [h]
    | some iDet => rw [h]

/-- C6 at a concrete input: a CSV with headers Foo, Amount has no
details-like column and fails with the schema error. -/
theorem claim_C6_witness :
    load_transactions csvNoDetails defaultStore = .error .schemaError :=
  claim_C6 csvNoDetails defaultStore (Or.inl (by decide))

/-- C7: `parse_amount` strips separators and currency symbols and parses
the remaining decimal content, or yields null: "1,234.56" → 1234.56,
"INR 1,234.56" → 1234.56, "abc" → null. -/
theorem claim_C7 :
    parse_amount "1,234.56" = some (1234.56 : ℚ) ∧
    parse_amount "INR 1,234.56" = some (1234.56 : ℚ) ∧
    parse_amount "abc" = none := by
  refine ⟨?_, ?_, by decide⟩
  · have h : parse_amount "1,234.56"
        = some (((1234 : ℕ) : ℚ) + ((56 : ℕ) : ℚ) / (10 : ℚ) ^ (2 : ℕ)) := rfl
    rw [h]
    norm_num
  · have h : parse_amount "INR 1,234.56"
        = some (((1234 : ℕ) : ℚ) + ((56 : ℕ) : ℚ) / (10 : ℚ) ^ (2 : ℕ)) := rfl
    rw [h]
    norm_num

/-- C8: initializing the category store never fails: an absent file gives
the default store with no warning, an unparseable file gives the default
store with a warning, and a subsequent add-category call on the resulting
session persists the grown store (which still contains the default key). -/
theorem claim_C8 (name : String) (h : storeFind defaultStore name = none) :
    init_categories .absent = (defaultStore, false) ∧
    init_categories .corrupt = (defaultStore, true) ∧
    (add_category ⟨(init_categories .corrupt).1, .corrupt⟩ name).persisted =
      .parsed (add_category ⟨(init_categories .corrupt).1, .corrupt⟩ name).categories ∧
    storeFind (add_category ⟨(init_categories .corrupt).1, .corrupt⟩ name).categories
      name = some [] ∧
    storeFind (add_category ⟨(init_categories .corrupt).1, .corrupt⟩ name).categories
      "Uncategorized" = some [] := by
  have hname : ("Uncategorized" == name) = false := by
    by_cases hb : ("Uncategorized" == name) = true
    · exfalso
      rw [show (defaultStore : CatStore)
          = ("Uncategorized", ([] : List String)) :: [] from rfl] at h
      rw [storeFind_cons, if_pos hb] at h
      exact Option.noConfusion h
    · simpa using hb
  have hadd : add_category ⟨(init_categories .corrupt).1, .corrupt⟩ name
      = save_categories ⟨defaultStore ++ [(name, [])], .corrupt⟩ := by
    simp only [add_category, init_categories]
    rw [h]
  refine ⟨rfl, rfl, ?_, ?_, ?_⟩
  · rw [hadd]
    rfl
  · rw [hadd]
    show storeFind (("Uncategorized", []) :: [(name, [])]) name = some []
    rw [storeFind_cons, if_neg (by simp [hname]), storeFind_cons,
      if_pos (by simp)]
  · rw [hadd]
    show storeFind (("Uncategorized", []) :: [(name, [])]) "Uncategorized" = some []
    rw [storeFind_cons, if_pos (by simp)]

/-- C8 at a concrete input: adding "Food" after a corrupt-file start. -/
theorem claim_C8_witness :
    init_categories .absent = (defaultStore, false) ∧
    init_categories .corrupt = (defaultStore, true) ∧
    (add_category ⟨(init_categories .corrupt).1, .corrupt⟩ "Food").persisted =
      .parsed (add_category ⟨(init_categories .corrupt).1, .corrupt⟩ "Food").categories ∧
    storeFind (add_category ⟨(init_categories .corrupt).1, .corrupt⟩ "Food").categories
      "Food" = some [] ∧
    storeFind (add_category ⟨(init_categories .corrupt).1, .corrupt⟩ "Food").categories
      "Uncategorized" = some [] :=
  claim_C8 "Food" (by decide)

/-- C9: when a batch's first edit resolves to a row whose category differs
from the (store-present) new category and its details strip to a non-empty
keyword, then after the batch — whatever the remaining edits do — the
persisted file parses back to the in-memory store and reloading it shows
that keyword under the new category. -/
theorem claim_C9 (sess : Session) (table : List Txn) (count : Nat)
    (e : Edit) (rest : List Edit) (t : Txn) (kws : List String)
    (hsync : sess.persisted = .parsed sess.categories)
    (hfind : table.find? (fun u => u.origIndex == e.origIndex) = some t)
    (hdiff : e.newCategory ≠ t.category)
    (hkey : storeFind sess.categories e.newCategory = some kws)
    (hne : pyStrip e.details ≠ "") :
    (apply_edits sess table count (e :: rest)).sess.persisted =
      .parsed (apply_edits sess table count (e :: rest)).sess.categories ∧
    pyStrip e.details ∈
      (storeFind
        (init_categories (apply_edits sess table count (e :: rest)).sess.persisted).1
        e.newCategory).getD [] := by
  have hbe : (pyStrip e.details == "") = false := beq_eq_false_iff_ne.mpr hne
  have step : ∃ sess₂,
      add_keyword_to_category sess e.newCategory e.details = .ok sess₂
      ∧ KwInv e.newCategory (pyStrip e.details) sess₂ := by
    by_cases hmem : pyStrip e.details ∈ kws
    · refine ⟨sess, ?_, hsync, ?_⟩
      · simp [add_keyword_to_category, hbe, hkey, hmem]
      · rw [hkey]
        simpa using hmem
    · refine ⟨save_categories { sess with categories := storeSet sess.categories e.newCategory (kws ++ [pyStrip e.details]) }, ?_, rfl, ?_⟩
      · simp [add_keyword_to_category, hbe, hkey, hmem]
      · show pyStrip e.details ∈
          (storeFind (storeSet sess.categories e.newCategory
            (kws ++ [pyStrip e.details])) e.newCategory).getD []
        rw [storeFind_storeSet_self hkey]
        simp
  obtain ⟨sess₂, hk, hinv₂⟩ := step
  have hfin : KwInv e.newCategory (pyStrip e.details)
      (apply_edits sess table count (e :: rest)).sess := by
    have hgoal : apply_edits sess table count (e :: rest)
        = apply_edits sess₂ (table.map (fun u =>
            if u.origIndex == e.origIndex then { u with category := e.newCategory }
            else u)) (count + 1) rest := by
      simp only [apply_edits, hfind, if_pos hdiff, hk]
    rw [hgoal]
    exact apply_edits_KwInv rest sess₂ _ _ hinv₂
  obtain ⟨h1, h2⟩ := hfin
  refine ⟨h1, ?_⟩
  rw [h1]
  exact h2

/-- C9 at a concrete input: changing the "coffee" row from Uncategorized
to Food persists, and the reloaded store lists "coffee" under Food. -/
theorem claim_C9_witness :
    (apply_edits sessFood tableCoffee 0 (⟨0, "Food", "coffee"⟩ :: [])).sess.persisted =
      .parsed (apply_edits sessFood tableCoffee 0
        (⟨0, "Food", "coffee"⟩ :: [])).sess.categories ∧
    pyStrip "coffee" ∈
      (storeFind
        (init_categories (apply_edits sessFood tableCoffee 0
          (⟨0, "Food", "coffee"⟩ :: [])).sess.persisted).1
        "Food").getD [] :=
  claim_C9 sessFood tableCoffee 0 ⟨0, "Food", "coffee"⟩ []
    ⟨0, none, "coffee", ((5 : ℕ) : ℚ), .Debit, "Uncategorized"⟩ []
    rfl (by decide) (by decide) (by decide) (by decide)

/-- C10: `parse_amount` deletes parentheses like any other stray
character, so the accounting-style negative "(1,234.56)" parses to the
positive 1234.56; and whenever the debit/credit cell fails to normalize,
the loader's fallback direction — computed from the post-abs amount — is
Credit for every amount, so such a row is classified Credit and the
original negativity is unrecoverable. -/
theorem claim_C10 :
    parse_amount "(1,234.56)" = some (1234.56 : ℚ) ∧
    ∀ (dcCell : String) (a : ℚ), normalize_debit_credit dcCell = none →
      row_direction dcCell (ratAbs a) = .Credit := by
  constructor
  · have h : parse_amount "(1,234.56)"
        = some (((1234 : ℕ) : ℚ) + ((56 : ℕ) : ℚ) / (10 : ℚ) ^ (2 : ℕ)) := rfl
    rw [h]
    norm_num
  · intro dcCell a hnone
    unfold row_direction
    rw [hnone, Option.getD_none, if_neg (not_lt.mpr (ratAbs_nonneg a))]

/-- C10 at a concrete input: the empty debit/credit cell fails to
normalize, and the fallback direction at the parsed "(1,234.56)" magnitude
is Credit. -/
theorem claim_C10_witness :
    parse_amount "(1,234.56)" = some (1234.56 : ℚ) ∧
    normalize_debit_credit "" = none ∧
    row_direction "" (ratAbs (-(1234.56 : ℚ))) = .Credit :=
  ⟨claim_C10.1, by decide, claim_C10.2 "" (-(1234.56 : ℚ)) (by decide)⟩

end FinanceDashboard
